import Mathlib

/-!
Verification development for the CustomerAII complaint-resolution engine.

The definitions below are shallow embeddings of the TypeScript source:
* `ConfidenceEvaluator.calculateOverallConfidence` (modules/followupQuestions/confidenceEvaluator.ts),
* `FollowupHandler.shouldAskMoreQuestions` / `llmShouldContinueAsking` (followupHandler.ts),
* `ConversationManager.askQuestions` / `processAnswer` (conversationManager.ts),
* `CallManager.placeComplaintCall` / `shouldRetryCall` (callManager.ts),
* `FallbackHandler.handleFallback` / `getUserPhoneNumber` (fallbackHandler.ts),
* `TwilioController.generateIVRNavigationPlan` (twilioController.ts),
* `extractReferenceNumber` (test/integrated-flow.test.ts).

JavaScript numbers are modelled as exact rationals (ℚ); external collaborators
(the OpenAI client, the telephony client, Firestore persistence) are modelled as
explicit parameters carrying the value the collaborator would produce, with a
thrown exception modelled as `Except.error`.
-/

/-- ConversationTurn from types/followupQuestions.ts:
`{id, question, answer, timestamp, extractedInfo, confidenceDelta}`.
The `Record<string, any>` map is modelled as an association list and `Date`
as a natural-number timestamp. -/
structure ConversationTurn where
  id : String
  question : String
  answer : String
  timestamp : Nat
  extractedInfo : List (String × String)
  confidenceDelta : ℚ
deriving DecidableEq, Repr

/-- EnhancedComplaintContext from types/followupQuestions.ts, restricted to the
fields the embedded operations read or write.  `customerDetails?.phone` and
`contactDetails?.phoneNumbers` are kept as the two optional fields the
fallback handler's phone-number resolution consults. -/
structure EnhancedComplaintContext where
  originalComplaint : String
  conversationHistory : List ConversationTurn
  finalConfidence : ℚ
  complaintType : String
  extractedFields : List (String × String)
  customerPhone : Option String
  contactPhoneNumbers : Option (List String)
deriving DecidableEq, Repr

/-- QuestionFlowConfig from config/followupQuestions.config.ts (the
`openaiApiKey` field is an environment secret and is not part of the model). -/
structure QuestionFlowConfig where
  maxQuestions : Nat
  confidenceThreshold : ℚ
  timeoutSeconds : Nat
deriving DecidableEq, Repr

/-- Default configuration: `{maxQuestions: 4, confidenceThreshold: 0.75, timeoutSeconds: 30}`. -/
def followupQuestionsConfig : QuestionFlowConfig :=
  { maxQuestions := 4, confidenceThreshold := 0.75, timeoutSeconds := 30 }

/-- Whitespace class of JavaScript (`\s`, `trim`), restricted to the ASCII
whitespace forms and NBSP that occur in the modelled strings. -/
def isJsSpace (c : Char) : Bool :=
  c == ' ' || c == '\t' || c == '\n' || c == '\r' || c.val == 11 || c.val == 12 ||
    c.val == 160

/-- JavaScript `String.prototype.trim`: strip whitespace from both ends. -/
def jsTrim (s : String) : String :=
  String.mk (((s.data.dropWhile isJsSpace).reverse.dropWhile isJsSpace).reverse)

/-- JavaScript `String.prototype.toUpperCase` on the ASCII strings the code
compares against. -/
def jsToUpper (s : String) : String :=
  String.mk (s.data.map Char.toUpper)

/-- Predicate for an answered turn: the code tests
`turn.answer && turn.answer.trim() !== ''` (an absent answer is the empty
string, whose trim is also empty, so truthiness is subsumed by the trim test). -/
def answeredB (t : ConversationTurn) : Bool :=
  jsTrim t.answer != ""

/-- Predicate for a pending turn: `!turn.answer || turn.answer.trim() === ''`. -/
def pendingB (t : ConversationTurn) : Bool :=
  jsTrim t.answer == ""

/-- ConfidenceEvaluator.calculateOverallConfidence: starts from the initial
confidence, adds `confidenceDelta` of every turn in the given history with a
`for` loop, and returns `Math.min(1.0, confidence)`.  This is the exact
rational idealization of the JavaScript number arithmetic; the program itself
folds in IEEE-754 binary64, modelled separately by
`calculateOverallConfidence64` below, and the two differ: the binary64 fold is
order-dependent at the program's own delta values. -/
def calculateOverallConfidence (initialConfidence : ℚ)
    (conversationHistory : List ConversationTurn) : ℚ :=
  min 1 (conversationHistory.foldl (fun c t => c + t.confidenceDelta) initialConfidence)

/-- Binary length of a natural number, with explicit recursion fuel so the
kernel can evaluate it; exact for every `n < 2 ^ 128`, far above any binary64
significand sum. -/
def bitLenAux : Nat → Nat → Nat
  | 0, _ => 0
  | fuel + 1, n => if n = 0 then 0 else bitLenAux fuel (n / 2) + 1

def bitLen (n : Nat) : Nat :=
  bitLenAux 128 n

/-- Non-negative IEEE-754 binary64 values are represented as a pair
`(m, e)` denoting `m * 2 ^ e`; the arithmetic below implements correctly
rounded (round-to-nearest, ties-to-even) operations on them, valid away from
overflow and subnormals, which the confidence values of this program
(magnitudes between 0.1 and 1.4) never approach. -/
def roundBits (m : ℕ) (e : ℤ) : ℕ × ℤ :=
  let n := bitLen m
  if n ≤ 53 then (m, e)
  else
    let t := n - 53
    let d := 2 ^ t
    let q := m / d
    let r := m % d
    let h := d / 2
    let q1 :=
      if h < r then q + 1
      else if r < h then q
      else if q % 2 = 0 then q else q + 1
    (q1, e + (t : ℤ))

/-- IEEE-754 binary64 addition of non-negative values: align the significands
at the smaller exponent, add exactly, then round the exact sum to 53 bits
(ties to even) — the definition of a correctly rounded floating-point sum. -/
def addF64 (x y : ℕ × ℤ) : ℕ × ℤ :=
  let e := if x.2 ≤ y.2 then x.2 else y.2
  roundBits (x.1 * 2 ^ (x.2 - e).toNat + y.1 * 2 ^ (y.2 - e).toNat) e

/-- Value equality of two binary64 representations (the representation is not
kept normalized, so significands are compared at a common exponent). -/
def f64Beq (x y : ℕ × ℤ) : Bool :=
  let e := if x.2 ≤ y.2 then x.2 else y.2
  x.1 * 2 ^ (x.2 - e).toNat == y.1 * 2 ^ (y.2 - e).toNat

/-- Value comparison of two binary64 representations. -/
def f64Le (x y : ℕ × ℤ) : Bool :=
  let e := if x.2 ≤ y.2 then x.2 else y.2
  Nat.ble (x.1 * 2 ^ (x.2 - e).toNat) (y.1 * 2 ^ (y.2 - e).toNat)

/-- Smallest scaling exponent `u` with `a * 2 ^ u ≥ 2 ^ 52 * b`, found by
bounded search (ample fuel for every decimal literal of the program). -/
def scaleUpAux : Nat → ℕ → ℕ → ℕ → ℕ
  | 0, _, _, u => u
  | fuel + 1, a, b, u =>
    if 2 ^ 52 * b ≤ a * 2 ^ u then u else scaleUpAux fuel a b (u + 1)

/-- The binary64 value of the JavaScript number literal `a / b` (for decimal
literals, `b` a power of ten): the fraction is rounded to 53 significant bits,
ties to even — exactly how a JavaScript source literal below `2 ^ 52` is
converted to a double. -/
def jsNumber (a b : ℕ) : ℕ × ℤ :=
  if a = 0 then (0, 0)
  else
    let u := scaleUpAux 1200 a b 0
    let s := a * 2 ^ u
    let q := s / b
    let r := s % b
    let q1 :=
      if b < 2 * r then q + 1
      else if 2 * r < b then q
      else if q % 2 = 0 then q else q + 1
    (q1, -(u : ℤ))

/-- ConfidenceEvaluator.calculateOverallConfidence as the program actually
executes it, in IEEE-754 binary64: fold the deltas into the confidence with
double addition, then `Math.min(1.0, confidence)`. -/
def calculateOverallConfidence64 (initialConfidence : ℕ × ℤ)
    (deltas : List (ℕ × ℤ)) : ℕ × ℤ :=
  let c := deltas.foldl addF64 initialConfidence
  if f64Le (1, 0) c then (1, 0) else c

/-- FollowupHandler.llmShouldContinueAsking: sends the continuation prompt to
the OpenAI client; on a thrown error it returns `false` (default to stop
asking), otherwise it compares `response.trim().toUpperCase()` with
`'CONTINUE'`.  The collaborator call is the `llmResp` argument. -/
def llmShouldContinueAsking (llmResp : Except String String) : Bool :=
  match llmResp with
  | Except.error _ => false
  | Except.ok response => jsToUpper (jsTrim response) == "CONTINUE"

/-- FollowupHandler.shouldAskMoreQuestions: hard-limit check
`conversationHistory.length >= maxQuestions` first, then the LLM decision.
The outer `catch` (falling back to `answeredQuestions < 2`) is unreachable for
collaborator failures because `llmShouldContinueAsking` already converts them
to `false`. -/
def shouldAskMoreQuestions (cfg : QuestionFlowConfig)
    (context : EnhancedComplaintContext) (llmResp : Except String String) : Bool :=
  if context.conversationHistory.length ≥ cfg.maxQuestions then false
  else llmShouldContinueAsking llmResp

/-- Merge of extracted-field maps by JavaScript object spread
`{...base, ...incoming}`: keys of `incoming` override keys of `base`, new keys
are appended. -/
def setField (m : List (String × String)) (k v : String) : List (String × String) :=
  if m.any (fun p => p.1 == k) then m.map (fun p => if p.1 == k then (k, v) else p)
  else m ++ [(k, v)]

def mergeFields (base incoming : List (String × String)) : List (String × String) :=
  incoming.foldl (fun acc kv => setField acc kv.1 kv.2) base

/-- Collaborator outcomes consumed by one `askQuestions` call:
`preAnalysisFields` is what `preAnalyzeComplaint` extracts from the raw
complaint (run only when the history is empty), `llmContinueResp` is the raw
LLM reply behind `shouldAskMoreQuestions`, `genQuestion` is the string produced
by `generateFollowupQuestion` (LLM-generated question after quality checks, or
a deterministic fallback template), `newId` the fresh uuid, `ts` the clock. -/
structure AskEnv where
  preAnalysisFields : List (String × String)
  llmContinueResp : Except String String
  genQuestion : String
  newId : String
  ts : Nat
deriving Repr

/-- Pre-analysis step of `askQuestions`: `preAnalyzeComplaint` (extract obvious
information from the raw complaint and merge it) runs only when the stored
conversation history is empty. -/
def preAnalyzeComplaint (stored : EnhancedComplaintContext) (env : AskEnv) :
    EnhancedComplaintContext :=
  if stored.conversationHistory.isEmpty then
    { stored with extractedFields := mergeFields stored.extractedFields env.preAnalysisFields }
  else stored

/-- Fresh unanswered turn pushed by `askQuestions`:
`{id: uuidv4(), question, answer: '', timestamp: new Date(), extractedInfo: ..., confidenceDelta: 0}`. -/
def mkPendingTurn (env : AskEnv) : ConversationTurn :=
  { id := env.newId, question := env.genQuestion, answer := "", timestamp := env.ts,
    extractedInfo := [], confidenceDelta := 0 }

/-- ConversationManager.askQuestions, given the stored complaint document
(`stored`) and the intake confidence (`initialConfidence`, the
`context.confidence` argument).  Mirrors the source: pre-analysis only on an
empty history; if any pending (unanswered) turn exists, return with only the
confidence recomputed over the full history; otherwise, when the answered-turn
count is below `maxQuestions`, the continuation decision says continue and a
non-blank question was generated, push a new unanswered turn; finally recompute
the confidence over the answered turns. -/
def askQuestions (cfg : QuestionFlowConfig) (initialConfidence : ℚ)
    (stored : EnhancedComplaintContext) (env : AskEnv) : EnhancedComplaintContext :=
  let ctx0 := preAnalyzeComplaint stored env
  let pendingQuestions := ctx0.conversationHistory.filter pendingB
  if pendingQuestions.length > 0 then
    { ctx0 with finalConfidence :=
        calculateOverallConfidence initialConfidence ctx0.conversationHistory }
  else
    let questionCount := (ctx0.conversationHistory.filter answeredB).length
    let hist1 :=
      if questionCount < cfg.maxQuestions
          ∧ shouldAskMoreQuestions cfg ctx0 env.llmContinueResp = true
          ∧ jsTrim env.genQuestion ≠ "" then
        ctx0.conversationHistory ++ [mkPendingTurn env]
      else ctx0.conversationHistory
    { ctx0 with
      conversationHistory := hist1,
      finalConfidence :=
        calculateOverallConfidence initialConfidence (hist1.filter answeredB) }

/-- Update performed by `processAnswer` on the located turn: write the answer,
refresh the timestamp, store the extracted map, and set
`confidenceDelta = Object.keys(extractedInfo).length > 0 ? 0.2 : 0.1`. -/
def answeredTurn (t : ConversationTurn) (ans : String) (ts : Nat)
    (info : List (String × String)) : ConversationTurn :=
  { t with
    answer := ans,
    timestamp := ts,
    extractedInfo := info,
    confidenceDelta := if info.length > 0 then 0.2 else 0.1 }

/-- Scan of `conversationHistory.findIndex(turn => turn.id === questionId)`
plus the per-turn update of `processAnswer`, carrying the turns strictly
before the match (`prior`) so information extraction sees only them.  Returns
the updated history together with the extracted map, or `none` when no turn
matches. -/
def processAnswerGo (questionId answer : String) (ts : Nat)
    (extractor : EnhancedComplaintContext → String → String → List (String × String))
    (data : EnhancedComplaintContext) :
    List ConversationTurn → List ConversationTurn →
      Option (List ConversationTurn × List (String × String))
  | _prior, [] => none
  | prior, t :: rest =>
    if t.id == questionId then
      let extractedInfo :=
        extractor { data with conversationHistory := prior } t.question answer
      some (prior ++ answeredTurn t answer ts extractedInfo :: rest, extractedInfo)
    else processAnswerGo questionId answer ts extractor data (prior ++ [t]) rest

/-- ConversationManager.processAnswer on the stored complaint document:
locate the turn by uuid (`findIndex`), throw
`No question found matching questionId` when absent; otherwise run information
extraction against the turns strictly before the match plus the new answer,
write the answer, the extracted map and `confidenceDelta` (0.2 when at least
one field was extracted, else 0.1) into the turn, merge the extracted fields,
and recompute the confidence over the answered turns.  Firestore reads/writes
are modelled by taking and returning the document contents. -/
def processAnswer (questionId answer : String) (ts : Nat)
    (extractor : EnhancedComplaintContext → String → String → List (String × String))
    (data : EnhancedComplaintContext) : Except String EnhancedComplaintContext :=
  match processAnswerGo questionId answer ts extractor data [] data.conversationHistory with
  | none => Except.error ("No question found matching questionId: " ++ questionId)
  | some (hist1, extractedInfo) =>
    Except.ok { data with
      conversationHistory := hist1,
      extractedFields := mergeFields data.extractedFields extractedInfo,
      finalConfidence :=
        calculateOverallConfidence data.finalConfidence (hist1.filter answeredB) }

/-- One externally triggered operation on a complaint's dialogue: an
`askQuestions` call (with its collaborator outcomes) or a `processAnswer` call
(with the submitted answer and the extractor's output for it). -/
inductive DialogueOp where
  | ask (initialConfidence : ℚ) (env : AskEnv)
  | answer (questionId : String) (answerText : String) (ts : Nat)
      (extracted : List (String × String))

/-- Effect of one operation on the stored complaint document.  A failing
`processAnswer` (unknown turn id) leaves the document unchanged because the
Firestore update is never reached. -/
def dialogueStep (cfg : QuestionFlowConfig) (st : EnhancedComplaintContext) :
    DialogueOp → EnhancedComplaintContext
  | DialogueOp.ask ic env => askQuestions cfg ic st env
  | DialogueOp.answer qid ans ts info =>
    match processAnswer qid ans ts (fun _ _ _ => info) st with
    | Except.ok st' => st'
    | Except.error _ => st

def runDialogue (cfg : QuestionFlowConfig) (st : EnhancedComplaintContext)
    (ops : List DialogueOp) : EnhancedComplaintContext :=
  ops.foldl (dialogueStep cfg) st

/-- Freshly created complaint document (processUnifiedComplaint writes
`conversationHistory: []` and `extractedFields: \x7b\x7d` at intake). -/
def newComplaintContext (raw : String) (c0 : ℚ) (ctype : String) :
    EnhancedComplaintContext :=
  { originalComplaint := raw, conversationHistory := [], finalConfidence := c0,
    complaintType := ctype, extractedFields := [], customerPhone := none,
    contactPhoneNumbers := none }

/-- Predicate on operations: the submitted answer of a `processAnswer` call is
non-blank (askQuestions calls are unconstrained). -/
def opAnswerNonBlank : DialogueOp → Bool
  | DialogueOp.ask _ _ => true
  | DialogueOp.answer _ ans _ _ => jsTrim ans != ""

/-- CallResult from types/callOrchestration.ts, restricted to the fields the
call-placement path writes (`status`, `resolution`, `nextSteps`, `callId`). -/
structure CallResult where
  status : String
  resolution : String
  nextSteps : List String
  callId : String
deriving DecidableEq, Repr

/-- CallOrchestrationConfig from config/callOrchestration.config.ts (API keys
omitted). -/
structure CallOrchestrationConfig where
  maxCallDurationMinutes : Nat
  maxRetries : Nat
  fallbackTriggers : List String
deriving DecidableEq, Repr

/-- Default configuration: `MAX_RETRIES || '2'`, `MAX_CALL_DURATION_MINUTES || '15'`,
default fallback triggers. -/
def callOrchestrationConfig : CallOrchestrationConfig :=
  { maxCallDurationMinutes := 15, maxRetries := 2,
    fallbackTriggers := ["need more information", "cannot proceed", "missing details"] }

/-- CallManager.placeComplaintCall together with CallManager.shouldRetryCall.
`dial k` is the outcome of the k-th `twilioClient.calls.create` attempt
(`Except.ok sid` returns the new call's sid, `Except.error e` models the thrown
error), `retryCount` is the persisted per-complaint retry counter.  On success
the method immediately builds
`{status: 'resolved', callId: call.sid, resolution: 'Call initiated successfully', nextSteps: [...]}`
and returns it — no monitoring, transcript retrieval or outcome extraction
happens in this method.  On failure, `shouldRetryCall` compares the persisted
`retryCount` against `maxRetries`; below the cap it increments the counter and
the whole call is retried, at the cap a terminal
`{status: 'failed', callId: 'failed_call', resolution: 'Call failed: ...'}` is
returned (never thrown).  The second component of the result counts the dial
attempts performed (the source's `updateComplaintStatus` swallows its own
persistence errors and is modelled as always succeeding). -/
def placeComplaintCall (cfg : CallOrchestrationConfig)
    (dial : Nat → Except String String) (attempt retryCount : Nat) :
    CallResult × Nat :=
  match dial attempt with
  | Except.ok sid =>
    ({ status := "resolved", callId := sid,
       resolution := "Call initiated successfully",
       nextSteps := ["Awaiting customer service response"] }, attempt + 1)
  | Except.error e =>
    if h : retryCount < cfg.maxRetries then
      placeComplaintCall cfg dial (attempt + 1) (retryCount + 1)
    else
      ({ status := "failed", callId := "failed_call",
         resolution := "Call failed: " ++ e, nextSteps := [] }, attempt + 1)
termination_by cfg.maxRetries - retryCount
decreasing_by omega

/-- FallbackResult from types/callOrchestration.ts. -/
structure FallbackResult where
  userResponses : List (String × String)
  callResumed : Bool
  resumeTimestamp : ℚ
deriving DecidableEq, Repr

/-- Observable collaborator calls made during a fallback episode, in order. -/
inductive FallbackEvent where
  | holdAttempt
  | sideCallToUser
  | resumeAttempt
deriving DecidableEq, Repr

/-- FallbackHandler.getUserPhoneNumber: `customerDetails?.phone` when truthy,
else `contactDetails?.phoneNumbers?.[0]` when truthy, else the hardcoded
fallback number. -/
def getUserPhoneNumber (context : EnhancedComplaintContext) : String :=
  let customer := context.customerPhone.getD ""
  if customer ≠ "" then customer
  else
    let contact := ((context.contactPhoneNumbers.getD []).head?).getD ""
    if contact ≠ "" then contact
    else "+15551234567"

/-- FallbackHandler.handleFallback.  `holdOk` is what
`twilioController.placeCallOnHold` reports, `callUser` the outcome of
`twilioController.callUserForFallback` (side call to the customer), `resumeOk`
what `twilioController.resumeCall` reports.  A `false` hold report throws
before the side call is placed; a failing side call propagates; a `false`
resume report throws after the side call.  Every throw is re-raised by the
surrounding catch as `Fallback handling failed: ...`.  The second component is
the trace of collaborator calls actually made, in order. -/
def handleFallback (context : EnhancedComplaintContext) (holdOk : Bool)
    (callUser : Except String FallbackResult) (resumeOk : Bool) :
    Except String FallbackResult × List FallbackEvent :=
  if !holdOk then
    (Except.error "Fallback handling failed: Failed to place call on hold",
     [FallbackEvent.holdAttempt])
  else
    let userPhoneNumber := getUserPhoneNumber context
    if userPhoneNumber = "" then
      (Except.error "Fallback handling failed: User phone number not available for fallback",
       [FallbackEvent.holdAttempt])
    else
      match callUser with
      | Except.error e =>
        (Except.error ("Fallback handling failed: " ++ e),
         [FallbackEvent.holdAttempt, FallbackEvent.sideCallToUser])
      | Except.ok fallbackResult =>
        if !resumeOk then
          (Except.error "Fallback handling failed: Failed to resume call after fallback",
           [FallbackEvent.holdAttempt, FallbackEvent.sideCallToUser,
            FallbackEvent.resumeAttempt])
        else
          (Except.ok fallbackResult,
           [FallbackEvent.holdAttempt, FallbackEvent.sideCallToUser,
            FallbackEvent.resumeAttempt])

/-- IVRNavigationStep from types/callOrchestration.ts. -/
structure IVRNavigationStep where
  action : String
  value : String
  delayMs : Nat
  description : String
deriving DecidableEq, Repr

/-- IVRNavigationPlan from types/callOrchestration.ts. -/
structure IVRNavigationPlan where
  steps : List IVRNavigationStep
  estimatedDuration : Nat
deriving DecidableEq, Repr

/-- Plan returned by `generateIVRNavigationPlan` when a non-empty IVR structure
is supplied: a fixed sequence (wait for greeting, press 2 for customer
service, wait for menu, press 1 for billing issues). -/
def hardcodedKnownStructurePlan : IVRNavigationPlan :=
  { steps :=
      [{ action := "wait", value := "greeting", delayMs := 5000,
         description := "Wait for initial greeting" },
       { action := "press", value := "2", delayMs := 1000,
         description := "Press 2 for customer service" },
       { action := "wait", value := "menu", delayMs := 3000,
         description := "Wait for department menu" },
       { action := "press", value := "1", delayMs := 1000,
         description := "Press 1 for billing issues" }],
    estimatedDuration := 10000 }

/-- Plan returned by `generateIVRNavigationPlan` when no IVR structure is
known: wait for greeting, press 0 to reach an operator, wait for the operator. -/
def genericOperatorPlan : IVRNavigationPlan :=
  { steps :=
      [{ action := "wait", value := "greeting", delayMs := 5000,
         description := "Wait for initial greeting" },
       { action := "press", value := "0", delayMs := 1000,
         description := "Press 0 to reach an operator" },
       { action := "wait", value := "operator", delayMs := 10000,
         description := "Wait for operator" }],
    estimatedDuration := 16000 }

/-- TwilioController.generateIVRNavigationPlan.  The `any[]` IVR structure is
modelled as an optional list of opaque strings; the source only tests
`ivrStructure && ivrStructure.length > 0` and never reads its elements nor the
`targetDepartment` argument. -/
def generateIVRNavigationPlan (ivrStructure : Option (List String))
    (targetDepartment : String) : IVRNavigationPlan :=
  match ivrStructure with
  | some l => if l.length > 0 then hardcodedKnownStructurePlan else genericOperatorPlan
  | none => genericOperatorPlan

/-- Character class `[A-Z0-9]` under the `i` flag of the first reference
pattern: ASCII letters of either case and digits. -/
def isAlnumCI (c : Char) : Bool :=
  c.isAlpha || c.isDigit

/-- Character class `[A-Z0-9]` without the `i` flag (second and third
reference patterns): uppercase ASCII letters and digits. -/
def isUpperDigit (c : Char) : Bool :=
  c.isUpper || c.isDigit

/-- Case-insensitive literal match: consume `lit` from the front of `s`
comparing characters after `toLower`, returning the rest on success. -/
def matchLitCI : List Char → List Char → Option (List Char)
  | [], s => some s
  | _ :: _, [] => none
  | l :: ls, c :: cs => if l.toLower == c.toLower then matchLitCI ls cs else none

/-- Backtracking choices of a greedy `\s*`: drop the maximal run of whitespace
first, then successively shorter prefixes down to none (the order a
backtracking regex engine explores them). -/
def spacesChoices (s : List Char) : List (List Char) :=
  (List.range ((s.takeWhile isJsSpace).length + 1)).reverse.map (fun j => s.drop j)

/-- Backtracking choices of the optional unit group `(?:number|#|id)?`:
the alternatives in source order, then skipping the group. -/
def unitChoices (s : List Char) : List (List Char) :=
  (["number".data, "#".data, "id".data].filterMap (fun u => matchLitCI u s)) ++ [s]

/-- Backtracking choices of `:?`: consume a colon when present, then skip. -/
def colonChoices : List Char → List (List Char)
  | ':' :: rest => [rest, ':' :: rest]
  | s => [s]

/-- Keyword alternation of the first reference pattern, in source order. -/
def referenceKeywords : List (List Char) :=
  ["reference".data, "confirmation".data, "case".data, "ticket".data, "order".data,
   "claim".data]

/-- Suffix positions reachable after matching
`(?:reference|confirmation|case|ticket|order|claim)\s*(?:number|#|id)?\s*:?\s*`
at the head of `s`, in the order a backtracking engine would try them. -/
def p1CandidatesAt (s : List Char) : List (List Char) :=
  referenceKeywords.flatMap fun kw =>
    match matchLitCI kw s with
    | none => []
    | some s1 =>
      (spacesChoices s1).flatMap fun s2 =>
        (unitChoices s2).flatMap fun s3 =>
          (spacesChoices s3).flatMap fun s4 =>
            (colonChoices s4).flatMap fun s5 =>
              spacesChoices s5

/-- Capture of the first reference pattern when anchored at the head of `s`:
the first backtracking candidate at which the trailing greedy `([A-Z0-9]{4,})`
(case-insensitive) finds a run of length at least 4. -/
def p1MatchAt (s : List Char) : Option (List Char) :=
  (p1CandidatesAt s).findSome? fun cand =>
    let run := cand.takeWhile isAlnumCI
    if run.length ≥ 4 then some run else none

/-- Leftmost match of the first reference pattern
`/(?:reference|confirmation|case|ticket|order|claim)\s*(?:number|#|id)?\s*:?\s*([A-Z0-9]{4,})/i`:
scan start positions left to right and return the capture group of the first
successful match (`matches[1]`). -/
def p1Extract (text : List Char) : Option String :=
  (text.tails.findSome? p1MatchAt).map (fun l => String.mk l)

/-- Match of `([A-Z]{2,}\d{4,}|\d{6,}[A-Z]{2,})` anchored at the head of `s`
(no `i` flag).  The character classes of consecutive quantifiers are disjoint,
so greedy maximal runs are exact. -/
def p2MatchAt (s : List Char) : Option (List Char) :=
  let u := s.takeWhile Char.isUpper
  let d := (s.drop u.length).takeWhile Char.isDigit
  if u.length ≥ 2 && d.length ≥ 4 then some (u ++ d)
  else
    let d2 := s.takeWhile Char.isDigit
    let u2 := (s.drop d2.length).takeWhile Char.isUpper
    if d2.length ≥ 6 && u2.length ≥ 2 then some (d2 ++ u2) else none

/-- Match of `([A-Z0-9]{8,})` anchored at the head of `s` (no `i` flag). -/
def p3MatchAt (s : List Char) : Option (List Char) :=
  let run := s.takeWhile isUpperDigit
  if run.length ≥ 8 then some run else none

/-- Global matching (`g` flag): collect non-overlapping matches left to right,
resuming after each match.  Both global patterns only produce non-empty
matches; an empty match falls through to the next position. -/
def globalMatches (matchAt : List Char → Option (List Char)) :
    List Char → List (List Char)
  | [] => []
  | c :: rest =>
    match matchAt (c :: rest) with
    | some m =>
      if h : 0 < m.length then m :: globalMatches matchAt ((c :: rest).drop m.length)
      else globalMatches matchAt rest
    | none => globalMatches matchAt rest
termination_by s => s.length
decreasing_by
  all_goals simp [List.length_drop]
  all_goals omega

/-- Result selection `matches[1] || matches[0]` on the array returned by
`String.match` with a global regex: the list of full matches; the second one
when it exists, else the first. -/
def globalPick (l : List (List Char)) : Option String :=
  match l with
  | [] => none
  | [m] => some (String.mk m)
  | _ :: m1 :: _ => some (String.mk m1)

/-- One entry of the Bland AI call transcript (`{user, text}`). -/
structure TranscriptEntry where
  user : String
  text : String
deriving DecidableEq, Repr

/-- Inner loop of `extractReferenceNumber`: try the three reference patterns in
order on one transcript entry; for the first (non-global) pattern the capture
group is returned (`matches[1]`), for the global ones `matches[1] || matches[0]`. -/
def tryReferencePatterns (text : String) : Option String :=
  match p1Extract text.data with
  | some cap => some cap
  | none =>
    match globalPick (globalMatches p2MatchAt text.data) with
    | some m => some m
    | none => globalPick (globalMatches p3MatchAt text.data)

/-- extractReferenceNumber from test/integrated-flow.test.ts: walk the
transcript in reverse order, skip entries whose `user` is `'assistant'`, and
return the first pattern result found. -/
def extractReferenceNumber (transcript : List TranscriptEntry) : Option String :=
  if transcript.length = 0 then none
  else
    transcript.reverse.findSome? fun entry =>
      if entry.user == "assistant" then none
      else tryReferencePatterns entry.text

lemma answeredB_eq_not_pendingB (t : ConversationTurn) : answeredB t = !pendingB t := by
  simp [answeredB, pendingB, bne]

lemma preAnalyzeComplaint_history (stored : EnhancedComplaintContext) (env : AskEnv) :
    (preAnalyzeComplaint stored env).conversationHistory = stored.conversationHistory := by
  unfold preAnalyzeComplaint
  split <;> rfl

lemma filter_answered_of_no_pending :
    ∀ l : List ConversationTurn, l.filter pendingB = [] → l.filter answeredB = l := by
  intro l h
  induction l with
  | nil => rfl
  | cons t ts ih =>
    rw [List.filter_cons] at h ⊢
    by_cases hp : pendingB t
    · simp [hp] at h
    · have hp' : pendingB t = false := by simpa using hp
      have ha : answeredB t = true := by simp [answeredB_eq_not_pendingB, hp']
      simp only [hp', Bool.false_eq_true, if_false] at h
      simp [ha, ih h]

lemma filter_pending_pos_ne_nil {l : List ConversationTurn}
    (h : 0 < (l.filter pendingB).length) : l ≠ [] := by
  intro he
  subst he
  simp at h

/-- Case analysis of `askQuestions` on the conversation history: either the
history is returned unchanged, or there was no pending turn, the answered-turn
count was strictly below the cap, and exactly one fresh pending turn was
appended. -/
lemma askQuestions_history_cases (cfg : QuestionFlowConfig) (ic : ℚ)
    (stored : EnhancedComplaintContext) (env : AskEnv) :
    (askQuestions cfg ic stored env).conversationHistory = stored.conversationHistory
  ∨ (stored.conversationHistory.filter pendingB = []
      ∧ (stored.conversationHistory.filter answeredB).length < cfg.maxQuestions
      ∧ (askQuestions cfg ic stored env).conversationHistory
          = stored.conversationHistory ++ [mkPendingTurn env]) := by
  simp only [askQuestions, preAnalyzeComplaint_history]
  split
  · left
    simp [preAnalyzeComplaint_history]
  · next hpend =>
    split
    · next hcond =>
      right
      refine ⟨?_, hcond.1, ?_⟩
      · have : (stored.conversationHistory.filter pendingB).length = 0 := by omega
        exact List.length_eq_zero.mp this
      · simp [preAnalyzeComplaint_history]
    · left
      simp [preAnalyzeComplaint_history]

lemma processAnswerGo_length (qid ans : String) (ts : Nat)
    (ex : EnhancedComplaintContext → String → String → List (String × String))
    (data : EnhancedComplaintContext) :
    ∀ (rest prior hist1 : List ConversationTurn) (info : List (String × String)),
      processAnswerGo qid ans ts ex data prior rest = some (hist1, info) →
      hist1.length = prior.length + rest.length := by
  intro rest
  induction rest with
  | nil =>
    intro prior hist1 info h
    simp [processAnswerGo] at h
  | cons t ts2 ih =>
    intro prior hist1 info h
    by_cases hid : (t.id == qid) = true
    · simp [processAnswerGo, hid] at h
      obtain ⟨h1, -⟩ := h
      subst h1
      simp
    · have hid' : (t.id == qid) = false := by simpa using hid
      simp only [processAnswerGo, hid', Bool.false_eq_true, if_false] at h
      have := ih (prior ++ [t]) hist1 info h
      simp only [List.length_append, List.length_cons, List.length_nil] at this ⊢
      omega

lemma processAnswerGo_pending_le (qid ans : String) (ts : Nat)
    (ex : EnhancedComplaintContext → String → String → List (String × String))
    (data : EnhancedComplaintContext) (hans : (jsTrim ans == "") = false) :
    ∀ (rest prior hist1 : List ConversationTurn) (info : List (String × String)),
      processAnswerGo qid ans ts ex data prior rest = some (hist1, info) →
      (hist1.filter pendingB).length ≤ ((prior ++ rest).filter pendingB).length := by
  intro rest
  induction rest with
  | nil =>
    intro prior hist1 info h
    simp [processAnswerGo] at h
  | cons t ts2 ih =>
    intro prior hist1 info h
    by_cases hid : (t.id == qid) = true
    · simp [processAnswerGo, hid] at h
      obtain ⟨h1, -⟩ := h
      subst h1
      simp only [List.filter_append, List.filter_cons, pendingB, answeredTurn, hans,
        List.length_append, Bool.false_eq_true, if_false]
      by_cases hpt : (jsTrim t.answer == "") = true <;> simp [hpt]
    · have hid' : (t.id == qid) = false := by simpa using hid
      simp only [processAnswerGo, hid', Bool.false_eq_true, if_false] at h
      have := ih (prior ++ [t]) hist1 info h
      simpa [List.append_assoc] using this

lemma dialogueStep_length_le (cfg : QuestionFlowConfig) (op : DialogueOp)
    (st : EnhancedComplaintContext)
    (h : st.conversationHistory.length ≤ cfg.maxQuestions) :
    (dialogueStep cfg st op).conversationHistory.length ≤ cfg.maxQuestions := by
  cases op with
  | ask ic env =>
    show (askQuestions cfg ic st env).conversationHistory.length ≤ cfg.maxQuestions
    rcases askQuestions_history_cases cfg ic st env with hc | ⟨hp, hlt, happ⟩
    · rw [hc]; exact h
    · rw [happ]
      have hall : st.conversationHistory.filter answeredB = st.conversationHistory :=
        filter_answered_of_no_pending _ hp
      rw [hall] at hlt
      simp
      omega
  | answer qid ans ts info =>
    show (match processAnswer qid ans ts (fun _ _ _ => info) st with
          | Except.ok st' => st'
          | Except.error _ => st).conversationHistory.length ≤ cfg.maxQuestions
    unfold processAnswer
    cases hgo : processAnswerGo qid ans ts (fun _ _ _ => info) st [] st.conversationHistory with
    | none => simpa [hgo] using h
    | some pr =>
      obtain ⟨hist1, info'⟩ := pr
      simp only [hgo]
      have := processAnswerGo_length qid ans ts (fun _ _ _ => info) st
        st.conversationHistory [] hist1 info' hgo
      simp at this
      simpa [this] using h

lemma dialogueStep_pending_le (cfg : QuestionFlowConfig) (op : DialogueOp)
    (st : EnhancedComplaintContext) (hq : opAnswerNonBlank op = true)
    (h : (st.conversationHistory.filter pendingB).length ≤ 1) :
    ((dialogueStep cfg st op).conversationHistory.filter pendingB).length ≤ 1 := by
  cases op with
  | ask ic env =>
    show ((askQuestions cfg ic st env).conversationHistory.filter pendingB).length ≤ 1
    rcases askQuestions_history_cases cfg ic st env with hc | ⟨hp, -, happ⟩
    · rw [hc]; exact h
    · rw [happ, List.filter_append, hp]
      simp [pendingB, mkPendingTurn, jsTrim]
  | answer qid ans ts info =>
    have hans : (jsTrim ans == "") = false := by
      simpa [opAnswerNonBlank, bne] using hq
    show ((match processAnswer qid ans ts (fun _ _ _ => info) st with
          | Except.ok st' => st'
          | Except.error _ => st).conversationHistory.filter pendingB).length ≤ 1
    unfold processAnswer
    cases hgo : processAnswerGo qid ans ts (fun _ _ _ => info) st [] st.conversationHistory with
    | none => simpa [hgo] using h
    | some pr =>
      obtain ⟨hist1, info'⟩ := pr
      simp only [hgo]
      have hle := processAnswerGo_pending_le qid ans ts (fun _ _ _ => info) st hans
        st.conversationHistory [] hist1 info' hgo
      simp at hle
      exact le_trans hle h

lemma runDialogue_inv (cfg : QuestionFlowConfig) (P : EnhancedComplaintContext → Prop)
    (Q : DialogueOp → Prop)
    (hstep : ∀ st op, Q op → P st → P (dialogueStep cfg st op)) :
    ∀ (ops : List DialogueOp) (st : EnhancedComplaintContext),
      (∀ op ∈ ops, Q op) → P st → P (runDialogue cfg st ops) := by
  intro ops
  induction ops with
  | nil => intro st _ h; simpa [runDialogue] using h
  | cons op ops ih =>
    intro st hq h
    have h1 : runDialogue cfg st (op :: ops) = runDialogue cfg (dialogueStep cfg st op) ops := rfl
    rw [h1]
    exact ih _ (fun o ho => hq o (List.mem_cons_of_mem _ ho))
      (hstep st op (hq op (List.mem_cons_self _ _)) h)

/-- C1: askQuestions appends a new turn only when the count of answered turns
is strictly below maxQuestions (default 4), so after any sequence of
askQuestions/processAnswer operations starting from a fresh complaint the
answered-turn count is at most maxQuestions. -/
theorem askQuestions_answered_cap :
    followupQuestionsConfig.maxQuestions = 4
  ∧ (∀ (cfg : QuestionFlowConfig) (ic : ℚ) (stored : EnhancedComplaintContext) (env : AskEnv),
      (askQuestions cfg ic stored env).conversationHistory ≠ stored.conversationHistory →
      (stored.conversationHistory.filter answeredB).length < cfg.maxQuestions)
  ∧ (∀ (cfg : QuestionFlowConfig) (raw : String) (c0 : ℚ) (ctype : String)
        (ops : List DialogueOp),
      ((runDialogue cfg (newComplaintContext raw c0 ctype) ops).conversationHistory.filter
          answeredB).length ≤ cfg.maxQuestions) := by
  refine ⟨rfl, ?_, ?_⟩
  · intro cfg ic stored env hne
    rcases askQuestions_history_cases cfg ic stored env with hc | ⟨-, hlt, -⟩
    · exact absurd hc hne
    · exact hlt
  · intro cfg raw c0 ctype ops
    have hinv : (runDialogue cfg (newComplaintContext raw c0 ctype) ops).conversationHistory.length
        ≤ cfg.maxQuestions :=
      runDialogue_inv cfg (fun st => st.conversationHistory.length ≤ cfg.maxQuestions)
        (fun _ => True) (fun st op _ h => dialogueStep_length_le cfg op st h) ops
        (newComplaintContext raw c0 ctype) (fun _ _ => trivial) (by simp [newComplaintContext])
    exact le_trans (List.length_filter_le _ _) hinv

/-- Witness for C1: a fresh complaint together with a continuation decision and
generated question that make askQuestions actually append a turn. -/
theorem askQuestions_answered_cap_witness :
    ((newComplaintContext "Internet down for 3 days" 0.5 "SERVICE").conversationHistory.filter
        answeredB).length < followupQuestionsConfig.maxQuestions :=
  askQuestions_answered_cap.2.1 followupQuestionsConfig 0.5
    (newComplaintContext "Internet down for 3 days" 0.5 "SERVICE")
    ⟨[], Except.ok "CONTINUE", "When did this problem first occur?", "q1", 1⟩
    (by decide)

/-- C2 counterexample: from a fresh complaint, ask a question, answer it,
ask a second question, then re-submit a whitespace-only answer for the first
turn: the first turn is re-opened and two pending turns coexist. -/
theorem pending_turns_not_exclusive :
    (((runDialogue followupQuestionsConfig
        (newComplaintContext "My bill is wrong" 0.5 "GENERAL")
        [DialogueOp.ask 0.5
           ⟨[], Except.ok "CONTINUE", "When did this problem first occur?", "q1", 1⟩,
         DialogueOp.answer "q1" "Yesterday evening" 2 [("when", "yesterday")],
         DialogueOp.ask 0.5
           ⟨[], Except.ok "CONTINUE", "What outcome do you want?", "q2", 3⟩,
         DialogueOp.answer "q1" " " 4 []]).conversationHistory).filter pendingB).length
      = 2 := by
  decide

/-- C2 (amended): whenever a pending turn exists, askQuestions returns the
context unchanged apart from the recomputed confidence; and provided every
answer submitted through processAnswer is non-blank, at most one pending turn
ever exists (a blank re-submission for an already answered turn can re-open it,
which is the counterexample above). -/
theorem askQuestions_pending_no_new_turn :
    (∀ (cfg : QuestionFlowConfig) (ic : ℚ) (stored : EnhancedComplaintContext) (env : AskEnv),
      0 < (stored.conversationHistory.filter pendingB).length →
      askQuestions cfg ic stored env =
        { stored with
          finalConfidence := calculateOverallConfidence ic stored.conversationHistory })
  ∧ (∀ (cfg : QuestionFlowConfig) (raw : String) (c0 : ℚ) (ctype : String)
        (ops : List DialogueOp),
      (∀ op ∈ ops, opAnswerNonBlank op = true) →
      (((runDialogue cfg (newComplaintContext raw c0 ctype) ops).conversationHistory.filter
          pendingB).length) ≤ 1) := by
  constructor
  · intro cfg ic stored env hp
    have hne : stored.conversationHistory ≠ [] := filter_pending_pos_ne_nil hp
    have hpre : preAnalyzeComplaint stored env = stored := by
      unfold preAnalyzeComplaint
      cases hl : stored.conversationHistory with
      | nil => exact absurd hl hne
      | cons a as => rfl
    simp only [askQuestions, hpre]
    rw [if_pos hp]
  · intro cfg raw c0 ctype ops hq
    exact runDialogue_inv cfg
      (fun st => (st.conversationHistory.filter pendingB).length ≤ 1)
      (fun op => opAnswerNonBlank op = true)
      (fun st op hqo h => dialogueStep_pending_le cfg op st hqo h) ops
      (newComplaintContext raw c0 ctype) hq (by simp [newComplaintContext])

/-- Witness for the amended C2: a context holding one pending turn is returned
with only its confidence recomputed, and a well-formed ask/answer sequence
keeps at most one pending turn. -/
theorem askQuestions_pending_no_new_turn_witness :
    askQuestions followupQuestionsConfig 0.5
        ⟨"Card blocked", [⟨"q1", "When did this occur?", "", 1, [], 0⟩], 0.5, "GENERAL",
         [], none, none⟩
        ⟨[], Except.ok "CONTINUE", "What outcome do you want?", "q2", 2⟩ =
      { (⟨"Card blocked", [⟨"q1", "When did this occur?", "", 1, [], 0⟩], 0.5, "GENERAL",
          [], none, none⟩ : EnhancedComplaintContext) with
        finalConfidence := calculateOverallConfidence 0.5
          [⟨"q1", "When did this occur?", "", 1, [], 0⟩] }
  ∧ (((runDialogue followupQuestionsConfig (newComplaintContext "Card blocked" 0.5 "GENERAL")
        [DialogueOp.ask 0.5
           ⟨[], Except.ok "CONTINUE", "When did this problem first occur?", "q1", 1⟩,
         DialogueOp.answer "q1" "Last Tuesday" 2 [("when", "last tuesday")]]
        ).conversationHistory.filter pendingB).length) ≤ 1 :=
  ⟨askQuestions_pending_no_new_turn.1 followupQuestionsConfig 0.5 _ _ (by decide),
   askQuestions_pending_no_new_turn.2 followupQuestionsConfig "Card blocked" 0.5 "GENERAL" _
     (by decide)⟩

/-- C6: whenever the continuation-decision call to the LLM collaborator fails,
`shouldAskMoreQuestions` resolves to false (stop asking). -/
theorem shouldAskMoreQuestions_llm_failure_stops
    (cfg : QuestionFlowConfig) (context : EnhancedComplaintContext) (e : String) :
    shouldAskMoreQuestions cfg context (Except.error e) = false := by
  simp [shouldAskMoreQuestions, llmShouldContinueAsking]

lemma foldl_add_confidence (l : List ConversationTurn) :
    ∀ a : ℚ, l.foldl (fun c t => c + t.confidenceDelta) a =
      a + (l.map (fun t => t.confidenceDelta)).sum := by
  induction l with
  | nil => intro a; simp
  | cons t ts ih => intro a; simp [ih, List.sum_cons]; ring

/-- C3 counterexample: the program folds the deltas in IEEE-754 binary64,
where addition is order-dependent at reachable values.  Starting from
initialConfidence 0.3 with turn deltas 0.2 and 0.1 — the exact confidenceDelta
values `processAnswer` writes — the order [0.2, 0.1] yields the double 0.6
while the order [0.1, 0.2] yields the double 0.6000000000000001 (one ulp
above), refuting the claimed order-independence of the program. -/
theorem calculateOverallConfidence_float_order_dependent :
    f64Beq
        (calculateOverallConfidence64 (jsNumber 3 10) [jsNumber 2 10, jsNumber 1 10])
        (calculateOverallConfidence64 (jsNumber 3 10) [jsNumber 1 10, jsNumber 2 10])
      = false
  ∧ f64Beq
        (calculateOverallConfidence64 (jsNumber 3 10) [jsNumber 2 10, jsNumber 1 10])
        (jsNumber 6 10)
      = true
  ∧ f64Beq
        (calculateOverallConfidence64 (jsNumber 3 10) [jsNumber 1 10, jsNumber 2 10])
        (jsNumber 6000000000000001 10000000000000000)
      = true := by
  decide

/-- C3 (amended): under exact rational arithmetic, calculateOverallConfidence
is the clamped sum `min(1.0, initialConfidence + Σ confidenceDelta)`, is
invariant under permutation of the turns, and for an initial confidence in
[0,1] and non-negative deltas stays in [0,1] even when the deltas sum above 1.
The program itself computes in IEEE-754 binary64, whose fold is deterministic
but order-dependent at the program's own delta values (see
`calculateOverallConfidence_float_order_dependent`), so order-independence
holds only of the exact idealization, up to one-ulp rounding differences. -/
theorem calculateOverallConfidence_spec :
    (∀ (ic : ℚ) (hist : List ConversationTurn),
       calculateOverallConfidence ic hist =
         min 1 (ic + (hist.map (fun t => t.confidenceDelta)).sum))
  ∧ (∀ (ic : ℚ) (h1 h2 : List ConversationTurn), h1.Perm h2 →
       calculateOverallConfidence ic h1 = calculateOverallConfidence ic h2)
  ∧ (∀ (ic : ℚ) (hist : List ConversationTurn),
       0 ≤ ic → ic ≤ 1 → (∀ t ∈ hist, 0 ≤ t.confidenceDelta) →
       0 ≤ calculateOverallConfidence ic hist ∧ calculateOverallConfidence ic hist ≤ 1) := by
  have hspec : ∀ (ic : ℚ) (hist : List ConversationTurn),
      calculateOverallConfidence ic hist =
        min 1 (ic + (hist.map (fun t => t.confidenceDelta)).sum) := by
    intro ic hist
    unfold calculateOverallConfidence
    rw [foldl_add_confidence]
  refine ⟨hspec, ?_, ?_⟩
  · intro ic h1 h2 hperm
    rw [hspec, hspec, List.Perm.sum_eq (List.Perm.map _ hperm)]
  · intro ic hist h0 h1 hd
    rw [hspec]
    constructor
    · apply le_min
      · norm_num
      · apply add_nonneg h0
        apply List.sum_nonneg
        intro x hx
        obtain ⟨t, ht, rfl⟩ := List.mem_map.mp hx
        exact hd t ht
    · exact min_le_left _ _

/-- Witness for C3: initial confidence 0.9 with deltas 0.2 and 0.3 sums above
1 and is clamped back into [0,1]. -/
theorem calculateOverallConfidence_spec_witness :
    0 ≤ calculateOverallConfidence 0.9
        [⟨"q1", "When did this occur?", "Yesterday", 1, [("when", "yesterday")], 0.2⟩,
         ⟨"q2", "What amount?", "250", 2, [("amount", "250")], 0.3⟩]
  ∧ calculateOverallConfidence 0.9
        [⟨"q1", "When did this occur?", "Yesterday", 1, [("when", "yesterday")], 0.2⟩,
         ⟨"q2", "What amount?", "250", 2, [("amount", "250")], 0.3⟩] ≤ 1 :=
  calculateOverallConfidence_spec.2.2 0.9
    [⟨"q1", "When did this occur?", "Yesterday", 1, [("when", "yesterday")], 0.2⟩,
     ⟨"q2", "What amount?", "250", 2, [("amount", "250")], 0.3⟩]
    (by norm_num) (by norm_num)
    (by intro t ht; fin_cases ht <;> norm_num)

lemma processAnswerGo_none (qid ans : String) (ts : Nat)
    (ex : EnhancedComplaintContext → String → String → List (String × String))
    (data : EnhancedComplaintContext) :
    ∀ (rest prior : List ConversationTurn),
      (∀ t ∈ rest, (t.id == qid) = false) →
      processAnswerGo qid ans ts ex data prior rest = none := by
  intro rest
  induction rest with
  | nil => intro prior _; rfl
  | cons t ts2 ih =>
    intro prior hall
    have ht : (t.id == qid) = false := hall t (by simp)
    simp only [processAnswerGo, ht, Bool.false_eq_true, if_false]
    exact ih _ (fun u hu => hall u (by simp [hu]))

lemma processAnswerGo_found (qid ans : String) (ts : Nat)
    (ex : EnhancedComplaintContext → String → String → List (String × String))
    (data : EnhancedComplaintContext) :
    ∀ (pre prior : List ConversationTurn) (t : ConversationTurn)
      (rest : List ConversationTurn),
      (∀ u ∈ pre, (u.id == qid) = false) → (t.id == qid) = true →
      processAnswerGo qid ans ts ex data prior (pre ++ t :: rest) =
        some ((prior ++ pre) ++
          answeredTurn t ans ts
            (ex { data with conversationHistory := prior ++ pre } t.question ans) :: rest,
          ex { data with conversationHistory := prior ++ pre } t.question ans) := by
  intro pre
  induction pre with
  | nil =>
    intro prior t rest _ hid
    simp [processAnswerGo, hid]
  | cons u pre ih =>
    intro prior t rest hall hid
    have hu : (u.id == qid) = false := hall u (by simp)
    simp only [List.cons_append, processAnswerGo, hu, Bool.false_eq_true, if_false]
    have := ih (prior ++ [u]) t rest (fun v hv => hall v (by simp [hv])) hid
    simpa [List.append_assoc] using this

lemma processAnswer_error_of_absent (qid ans : String) (ts : Nat)
    (ex : EnhancedComplaintContext → String → String → List (String × String))
    (data : EnhancedComplaintContext)
    (hall : ∀ t ∈ data.conversationHistory, t.id ≠ qid) :
    processAnswer qid ans ts ex data =
      Except.error ("No question found matching questionId: " ++ qid) := by
  unfold processAnswer
  have hnone := processAnswerGo_none qid ans ts ex data data.conversationHistory []
    (fun t ht => by simpa using hall t ht)
  simp [hnone]

lemma processAnswer_ok_of_found (qid ans : String) (ts : Nat)
    (ex : EnhancedComplaintContext → String → String → List (String × String))
    (data : EnhancedComplaintContext) (pre : List ConversationTurn)
    (t : ConversationTurn) (rest : List ConversationTurn)
    (heq : data.conversationHistory = pre ++ t :: rest)
    (hpre : ∀ u ∈ pre, u.id ≠ qid) (hid : t.id = qid) :
    processAnswer qid ans ts ex data =
      Except.ok { data with
        conversationHistory :=
          pre ++ answeredTurn t ans ts
            (ex { data with conversationHistory := pre } t.question ans) :: rest,
        extractedFields := mergeFields data.extractedFields
          (ex { data with conversationHistory := pre } t.question ans),
        finalConfidence := calculateOverallConfidence data.finalConfidence
          ((pre ++ answeredTurn t ans ts
              (ex { data with conversationHistory := pre } t.question ans) :: rest).filter
            answeredB) } := by
  unfold processAnswer
  rw [heq]
  have hfound := processAnswerGo_found qid ans ts ex data pre [] t rest
    (fun u hu => by simpa using hpre u hu) (by simpa using hid)
  simp only [List.nil_append] at hfound
  simp [hfound]

lemma exists_first_match (hist : List ConversationTurn) (qid : String)
    (h : ∃ t ∈ hist, t.id = qid) :
    ∃ pre t rest, hist = pre ++ t :: rest ∧ (∀ u ∈ pre, u.id ≠ qid) ∧ t.id = qid := by
  induction hist with
  | nil => simp at h
  | cons a as ih =>
    by_cases ha : a.id = qid
    · exact ⟨[], a, as, rfl, by simp, ha⟩
    · obtain ⟨t, ht, hid⟩ := h
      rcases List.mem_cons.mp ht with rfl | hmem
      · exact absurd hid ha
      · obtain ⟨pre, t', rest, heq, hpre, hid'⟩ := ih ⟨t, hmem, hid⟩
        refine ⟨a :: pre, t', rest, by simp [heq], ?_, hid'⟩
        intro u hu
        rcases List.mem_cons.mp hu with rfl | h2
        · exact ha
        · exact hpre u h2

/-- C4: processAnswer fails (with a surfaced error) exactly when no stored
turn carries the submitted questionId; when the turn exists it is returned
with the exact submitted answer text, confidenceDelta 0.2 when the extractor
produced at least one field and 0.1 otherwise, and information extraction runs
against only the turns strictly before that turn. -/
theorem processAnswer_spec :
    (∀ (qid ans : String) (ts : Nat)
       (ex : EnhancedComplaintContext → String → String → List (String × String))
       (data : EnhancedComplaintContext),
       (∀ t ∈ data.conversationHistory, t.id ≠ qid) →
       processAnswer qid ans ts ex data =
         Except.error ("No question found matching questionId: " ++ qid))
  ∧ (∀ (qid ans : String) (ts : Nat)
       (ex : EnhancedComplaintContext → String → String → List (String × String))
       (data : EnhancedComplaintContext),
       (processAnswer qid ans ts ex data).isOk = true ↔
         ∃ t ∈ data.conversationHistory, t.id = qid)
  ∧ (∀ (qid ans : String) (ts : Nat)
       (ex : EnhancedComplaintContext → String → String → List (String × String))
       (data : EnhancedComplaintContext) (pre : List ConversationTurn)
       (t : ConversationTurn) (rest : List ConversationTurn),
       data.conversationHistory = pre ++ t :: rest →
       (∀ u ∈ pre, u.id ≠ qid) → t.id = qid →
       processAnswer qid ans ts ex data =
         Except.ok { data with
           conversationHistory :=
             pre ++ answeredTurn t ans ts
               (ex { data with conversationHistory := pre } t.question ans) :: rest,
           extractedFields := mergeFields data.extractedFields
             (ex { data with conversationHistory := pre } t.question ans),
           finalConfidence := calculateOverallConfidence data.finalConfidence
             ((pre ++ answeredTurn t ans ts
                 (ex { data with conversationHistory := pre } t.question ans) :: rest).filter
               answeredB) }) := by
  refine ⟨processAnswer_error_of_absent, ?_, processAnswer_ok_of_found⟩
  intro qid ans ts ex data
  constructor
  · intro hok
    by_contra hne
    push_neg at hne
    rw [processAnswer_error_of_absent qid ans ts ex data hne] at hok
    simp [Except.isOk, Except.toBool] at hok
  · intro hex
    obtain ⟨pre, t, rest, heq, hpre, hid⟩ := exists_first_match _ _ hex
    rw [processAnswer_ok_of_found qid ans ts ex data pre t rest heq hpre hid]
    rfl

/-- Witness for C4: one stored pending turn answered with a non-empty
extraction, yielding the exact answer text and confidenceDelta 0.2. -/
theorem processAnswer_spec_witness :
    processAnswer "q1" "On January 15th" 2
        (fun _ _ _ => [("transaction_date", "2024-01-15")])
        ⟨"Netflix double charge", [⟨"q1", "When did this occur?", "", 1, [], 0⟩], 0.5,
         "BILLING", [], none, none⟩ =
      Except.ok
        ⟨"Netflix double charge",
         [answeredTurn ⟨"q1", "When did this occur?", "", 1, [], 0⟩ "On January 15th" 2
            [("transaction_date", "2024-01-15")]],
         calculateOverallConfidence 0.5
           ([answeredTurn ⟨"q1", "When did this occur?", "", 1, [], 0⟩ "On January 15th" 2
               [("transaction_date", "2024-01-15")]].filter answeredB),
         "BILLING", [("transaction_date", "2024-01-15")], none, none⟩ := by
  have h := processAnswer_spec.2.2 "q1" "On January 15th" 2
    (fun _ _ _ => [("transaction_date", "2024-01-15")])
    ⟨"Netflix double charge", [⟨"q1", "When did this occur?", "", 1, [], 0⟩], 0.5,
     "BILLING", [], none, none⟩
    [] ⟨"q1", "When did this occur?", "", 1, [], 0⟩ [] rfl (by simp) rfl
  exact h.trans (by rfl)

/-- C5: with the default configuration (maxRetries = 2), a persisted
retryCount starting at 0 and a telephony client whose call creation always
fails, placeComplaintCall performs exactly 3 dial attempts (2 retries) and then
returns — its result type is a CallResult, not an exception — a terminal
'failed' result whose resolution text contains the error message. -/
theorem placeComplaintCall_retry_cap (e : String) (dial : Nat → Except String String)
    (hfail : ∀ k, dial k = Except.error e) :
    callOrchestrationConfig.maxRetries = 2
  ∧ placeComplaintCall callOrchestrationConfig dial 0 0 =
      ({ status := "failed", callId := "failed_call",
         resolution := "Call failed: " ++ e, nextSteps := [] }, 3) := by
  refine ⟨rfl, ?_⟩
  rw [placeComplaintCall.eq_def, hfail]
  norm_num [callOrchestrationConfig]
  rw [placeComplaintCall.eq_def, hfail]
  norm_num [callOrchestrationConfig]
  rw [placeComplaintCall.eq_def, hfail]
  norm_num [callOrchestrationConfig]

/-- Witness for C5: a dial collaborator that always reports a connection
failure. -/
theorem placeComplaintCall_retry_cap_witness :
    callOrchestrationConfig.maxRetries = 2
  ∧ placeComplaintCall callOrchestrationConfig (fun _ => Except.error "ECONNREFUSED") 0 0 =
      ({ status := "failed", callId := "failed_call",
         resolution := "Call failed: ECONNREFUSED", nextSteps := [] }, 3) :=
  placeComplaintCall_retry_cap "ECONNREFUSED" (fun _ => Except.error "ECONNREFUSED")
    (fun _ => rfl)

/-- C10: whenever the telephony client's call creation succeeds,
placeComplaintCall immediately returns status 'resolved' with resolution
'Call initiated successfully' and callId the new call's sid, after exactly one
further dial attempt and nothing else — so 'resolved' only records that the
call was initiated. -/
theorem placeComplaintCall_success_is_initiation_only
    (cfg : CallOrchestrationConfig) (dial : Nat → Except String String) (sid : String)
    (attempt retryCount : Nat) (hok : dial attempt = Except.ok sid) :
    placeComplaintCall cfg dial attempt retryCount =
      ({ status := "resolved", callId := sid,
         resolution := "Call initiated successfully",
         nextSteps := ["Awaiting customer service response"] }, attempt + 1) := by
  rw [placeComplaintCall.eq_def, hok]

/-- Witness for C10: a dial collaborator that succeeds on the first attempt. -/
theorem placeComplaintCall_success_is_initiation_only_witness :
    placeComplaintCall callOrchestrationConfig (fun _ => Except.ok "CA1234567890") 0 0 =
      ({ status := "resolved", callId := "CA1234567890",
         resolution := "Call initiated successfully",
         nextSteps := ["Awaiting customer service response"] }, 1) :=
  placeComplaintCall_success_is_initiation_only callOrchestrationConfig
    (fun _ => Except.ok "CA1234567890") "CA1234567890" 0 0 rfl

lemma getUserPhoneNumber_ne_empty (context : EnhancedComplaintContext) :
    getUserPhoneNumber context ≠ "" := by
  simp only [getUserPhoneNumber]
  split_ifs with h1 h2
  · exact h1
  · exact h2
  · decide

/-- C8: handleFallback throws whenever the hold on the company call reports
failure (and then no side call to the customer is placed) and whenever the
resume after the side call reports failure; it returns a FallbackResult
exactly when hold, side call and resume all succeed, and then the collaborator
calls happen in the order hold, side call, resume. -/
theorem handleFallback_spec (context : EnhancedComplaintContext) (holdOk : Bool)
    (callUser : Except String FallbackResult) (resumeOk : Bool) :
    (holdOk = false →
       (handleFallback context holdOk callUser resumeOk).1 =
           Except.error "Fallback handling failed: Failed to place call on hold"
         ∧ FallbackEvent.sideCallToUser ∉ (handleFallback context holdOk callUser resumeOk).2)
  ∧ (∀ fr, holdOk = true → callUser = Except.ok fr → resumeOk = false →
       (handleFallback context holdOk callUser resumeOk).1 =
         Except.error "Fallback handling failed: Failed to resume call after fallback")
  ∧ ((∃ fr, (handleFallback context holdOk callUser resumeOk).1 = Except.ok fr) ↔
       (holdOk = true ∧ (∃ fr, callUser = Except.ok fr) ∧ resumeOk = true))
  ∧ ((∃ fr, (handleFallback context holdOk callUser resumeOk).1 = Except.ok fr) →
       (handleFallback context holdOk callUser resumeOk).2 =
         [FallbackEvent.holdAttempt, FallbackEvent.sideCallToUser,
          FallbackEvent.resumeAttempt]) := by
  have hphone := getUserPhoneNumber_ne_empty context
  cases holdOk <;> cases resumeOk <;> cases callUser <;>
    simp [handleFallback, hphone]

/-- Witness for C8: hold and side call succeed but the resume fails, so the
episode surfaces an explicit error. -/
theorem handleFallback_spec_witness :
    (handleFallback (newComplaintContext "Order not delivered" 0.5 "DELIVERY") true
        (Except.ok ⟨[("account_number", "AC123456789")], true, 100⟩) false).1 =
      Except.error "Fallback handling failed: Failed to resume call after fallback" :=
  (handleFallback_spec (newComplaintContext "Order not delivered" 0.5 "DELIVERY") true
      (Except.ok ⟨[("account_number", "AC123456789")], true, 100⟩) false).2.1
    ⟨[("account_number", "AC123456789")], true, 100⟩ rfl rfl rfl

/-- C9 counterexample: with a non-empty IVR structure the generated plan is
identical for the departments technical_support and billing — it ignores the
requested target department — and its press steps are the fixed keys 2 then 1
(labelled customer service and billing issues), so it does not press a key
mapped to the requested department. -/
theorem generateIVRNavigationPlan_department_counterexample :
    generateIVRNavigationPlan (some ["Main menu"]) "technical_support" =
        generateIVRNavigationPlan (some ["Main menu"]) "billing"
  ∧ ((generateIVRNavigationPlan (some ["Main menu"]) "technical_support").steps.filter
        (fun s => s.action == "press")).map (fun s => (s.value, s.description)) =
      [("2", "Press 2 for customer service"), ("1", "Press 1 for billing issues")] := by
  decide

/-- C9 (amended): with a non-empty IVR structure the plan is the fixed
hardcoded sequence (wait for greeting, press 2 for customer service, wait for
menu, press 1 for billing issues) independent of the structure's content and
of the requested target department; with no structure (or an empty one) it is
the generic plan: wait for greeting, press 0 for the operator, wait for the
operator. -/
theorem generateIVRNavigationPlan_spec :
    (∀ (l : List String) (d : String), l ≠ [] →
       generateIVRNavigationPlan (some l) d = hardcodedKnownStructurePlan)
  ∧ (∀ d : String, generateIVRNavigationPlan none d = genericOperatorPlan)
  ∧ (∀ d : String, generateIVRNavigationPlan (some []) d = genericOperatorPlan)
  ∧ genericOperatorPlan.steps.map (fun s => (s.action, s.value)) =
      [("wait", "greeting"), ("press", "0"), ("wait", "operator")] := by
  refine ⟨?_, fun d => rfl, fun d => rfl, by decide⟩
  intro l d hl
  unfold generateIVRNavigationPlan
  cases l with
  | nil => exact absurd rfl hl
  | cons a as => simp

/-- Witness for the amended C9: a one-entry IVR structure. -/
theorem generateIVRNavigationPlan_spec_witness :
    generateIVRNavigationPlan (some ["Welcome menu"]) "billing" =
      hardcodedKnownStructurePlan :=
  generateIVRNavigationPlan_spec.1 ["Welcome menu"] "billing" (by decide)

/-- C7: on the scenario-C transcript the code returns the literal word
"number", not "ABC12345": under the `i` flag `[A-Z0-9]` also matches lowercase
letters, and the optional `(?:number|#|id)?` group backtracks to empty, so the
first pattern's capture group matches the word "number" right after "case". -/
theorem extractReferenceNumber_scenarioC :
    extractReferenceNumber [⟨"human", "Your case number is ABC12345, thank you"⟩] =
      some "number" := by
  decide
